import Mathlib

/-!
Verification of the TermChat terminal chat client (`src/TermChat.ts`,
`src/TermChatServer.ts`).

The development shallowly embeds the client's pure control flow:

* the chat-view synchronizer (the `TransformerCache` callbacks `onAdd`,
  `onInsert`, `onDelete`, `onClose`; the cache's ordering logic itself lives in
  the external `universeai` SDK, so it is modelled from the design document);
* the command dispatcher `handleCommand` / `sendChat` / `setupUI`;
* the attachment transfer paths `upload` (first client variant), the inline
  `/upload` branch of the third variant, `download` (first variant) and
  `handleBlob` (second/third variants).

Effectful calls (console output, posting nodes, opening/closing streams,
`mkdir`, `process.exit`) are modelled as an `Action` trace; the result of a
`streamWriter.run()` promise is an `Except String Unit` parameter, and the
result of `channel.post` is an `Option (List Nat)` parameter (the node id as a
byte buffer, `none` when the post returns no node).
-/

namespace TermChat

/-- Content type tag of a message node: `"app/chat/attachment"` versus
everything else (plain text). -/
inductive ContentType
  | text
  | attachment
deriving DecidableEq, Repr

/-- Blob reference carried by an attachment node: `{blobHash, blobLength}`.
The hash is a byte buffer. -/
structure BlobRef where
  hash : List Nat
  length : Nat
deriving DecidableEq, Repr

/-- A message node as the client sees it: content id (`getId1`, abstracted to a
numeric id), store-assigned ordering index, content type, data payload
(`getData`: the text body, or the filename for attachments) and the optional
blob reference. -/
structure Message where
  id : Nat
  index : Nat
  contentType : ContentType
  payload : String
  blobRef : Option BlobRef
deriving DecidableEq, Repr

/-- The relation "ordered by ascending store index" (non-strict). -/
def leIdx (a b : Message) : Prop := a.index ≤ b.index

/-- The relation "ordered by strictly ascending store index". -/
def ltIdx (a b : Message) : Prop := a.index < b.index

instance : DecidableRel leIdx := fun a b => inferInstanceAs (Decidable (a.index ≤ b.index))

instance : DecidableRel ltIdx := fun a b => inferInstanceAs (Decidable (a.index < b.index))

instance : IsAntisymm Message ltIdx :=
  ⟨fun _ _ h1 h2 => absurd (Nat.lt_trans h1 h2) (Nat.lt_irrefl _)⟩

/-- Modelled from the spec: the ChatView maintained by the external
`TransformerCache` is the ordered list of messages; `containsId` is the
`id → position` existence check used for deduplication. -/
def containsId (v : List Message) (i : Nat) : Bool := v.any (fun m => m.id == i)

/-- Modelled from the spec: insert into the ordered sequence at the position
preserving ascending `index` order (linear scan by index). -/
def insertOrdered (m : Message) : List Message → List Message
  | [] => [m]
  | x :: xs => if m.index ≤ x.index then m :: x :: xs else x :: insertOrdered m xs

/-- Modelled from the spec: `onInsert(item)` — ordered insertion of a
historical item; an already-present `id` is a no-op. -/
def onInsert (v : List Message) (m : Message) : List Message :=
  if containsId v m.id then v else insertOrdered m v

/-- Modelled from the spec: `onAdd(item)` — the item's index is expected to be
the new maximum, so it is appended at the tail; an already-present `id` is a
no-op. -/
def onAdd (v : List Message) (m : Message) : List Message :=
  if containsId v m.id then v else v ++ [m]

/-- Modelled from the spec: `onDelete(item)` — remove by id; an absent id is a
no-op. -/
def onDelete (v : List Message) (i : Nat) : List Message :=
  v.filter (fun m => m.id ≠ i)

/-- An Add or Insert notification delivered to the synchronizer. -/
inductive SyncEvent
  | add (m : Message)
  | ins (m : Message)
deriving DecidableEq, Repr

/-- The message carried by an Add/Insert notification. -/
def SyncEvent.msg : SyncEvent → Message
  | .add m => m
  | .ins m => m

/-- Apply one Add/Insert notification to the view. -/
def applySync (v : List Message) : SyncEvent → List Message
  | .add m => onAdd v m
  | .ins m => onInsert v m

/-- Apply a whole sequence of Add/Insert notifications in arrival order. -/
def applyAll (v : List Message) (es : List SyncEvent) : List Message :=
  es.foldl applySync v

/-- The contract an Add notification carries per the spec: at the moment it is
delivered, its index is the new maximum of the view.  Insert notifications
carry no such constraint. -/
def addOk (v : List Message) : SyncEvent → Bool
  | .add m => v.all (fun x => x.index < m.index)
  | .ins _ => true

/-- A well-formed interleaving: every Add notification in it arrives when its
index exceeds every index already in the view. -/
def wfSeq : List Message → List SyncEvent → Bool
  | _, [] => true
  | v, e :: es => addOk v e && wfSeq (applySync v e) es

/-- Console severity level of a `PocketConsole` call (`console.log`,
`console.info`, ...). -/
inductive Severity
  | log
  | info
  | warn
  | error
  | debug
  | aced
deriving DecidableEq, Repr

/-- One observable effect performed by the client. -/
inductive Action
  | output (sev : Severity) (s : String)
  | lsOutput (files : List String)
  | post (ct : ContentType) (payload : String) (blob : Option BlobRef)
  | postLicense (nodeId : List Nat)
  | openFileReader (path : String)
  | closeReader
  | openBlobReader (nodeId : List Nat)
  | openFileWriter (path : String)
  | closeWriter
  | startBlobWrite (nodeId : List Nat)
  | mkdir (path : String)
  | exitProcess (code : Nat)
deriving DecidableEq, Repr

/-- Whether the action creates a local `FileStreamReader`. -/
def Action.isOpenReader : Action → Bool
  | .openFileReader _ => true
  | _ => false

/-- Whether the action closes the blob/file stream reader. -/
def Action.isCloseReader : Action → Bool
  | .closeReader => true
  | _ => false

/-- Whether the action closes the file stream writer. -/
def Action.isCloseWriter : Action → Bool
  | .closeWriter => true
  | _ => false

/-- Whether the action starts a blob stream write (a TransferJob in the upload
direction). -/
def Action.isStartBlobWrite : Action → Bool
  | .startBlobWrite _ => true
  | _ => false

/-- Whether the action creates a directory. -/
def Action.isMkdir : Action → Bool
  | .mkdir _ => true
  | _ => false

/-- Whether the action terminates the process. -/
def Action.isExit : Action → Bool
  | .exitProcess _ => true
  | _ => false

/-- Whether the action is an error-severity console report. -/
def Action.isErrorOutput : Action → Bool
  | .output .error _ => true
  | _ => false

/-- Local filesystem as the client observes it: the set of existing paths
(`fs.existsSync`), the current working directory listing (`fs.readdirSync`),
and the size (`fs.statSync(..).size`) and content hash (`FileUtil.HashFile`) of
each file. -/
structure FsState where
  files : List String
  listing : List String
  size : String → Nat
  hashBytes : String → List Nat

/-- Client state the dispatcher reads: whether the storage channel exists
(`this.channel`), the current ChatView snapshot (the transformer's items), and
the local filesystem. -/
structure ClientState where
  channel : Bool
  view : List Message
  fs : FsState

/-- Does `fs.existsSync(p)` hold. -/
def existsSync (files : List String) (p : String) : Bool := files.contains p

/-- JavaScript `s.startsWith(pre)`. -/
def jsStartsWith (s pre : String) : Bool := pre.data.isPrefixOf s.data

/-- JavaScript `s.slice(n)`. -/
def jsSlice (s : String) (n : Nat) : String := String.mk (s.data.drop n)

/-- Lower-case hex digit of a value below 16. -/
def hexDigit (n : Nat) : Char :=
  if n < 10 then Char.ofNat (48 + n) else Char.ofNat (87 + n)

/-- Two lower-case hex digits of one byte. -/
def byteHex (b : Nat) : String := String.mk [hexDigit (b / 16 % 16), hexDigit (b % 16)]

/-- `Buffer.toString("hex")` of a byte buffer. -/
def toHex (bs : List Nat) : String := String.join (bs.map byteHex)

/-- Node `path.basename`: strip trailing separators, then keep the part after
the last separator. -/
def basename (s : String) : String :=
  String.mk (((s.data.reverse.dropWhile (fun c => c = '/')).takeWhile (fun c => c ≠ '/')).reverse)

/-- Node `path.sep` on the posix platform the client targets. -/
def sep : String := "/"

/-- The static help text printed by `/help`. -/
def helpText : String :=
  "The following commands are available:\n/help (shows this help)\n/history (shows the full history)\n/ls (list all files in the current directory)\n/upload filename (upload a file as a data node with a blob)\n"

/-- The console line `/history` prints for one transformer item:
`transformerItem.index` followed by `dataNode.getData()?.toString()`. -/
def historyLine (m : Message) : String := toString m.index ++ ": " ++ m.payload

/-- The line format the design document claims for `/history`:
the text payload for Text messages, `<attachment> <filename>` for Attachment
messages. Stated from the spec for comparison with `historyLine`. -/
def historyLineSpec (m : Message) : String :=
  toString m.index ++ ": " ++
    (match m.contentType with
     | ContentType.text => m.payload
     | ContentType.attachment => "<attachment> " ++ m.payload)

/-- The `upload` method of the first client variant: stat/hash the file, log,
post an attachment node; only when the post returns a node does it attach the
license, open the local `FileStreamReader` and start the blob stream write. -/
def upload (st : ClientState) (filePath : String) (postResult : Option (List Nat)) :
    List Action :=
  if st.channel = false then []
  else
    [Action.output .info ("Uploading file " ++ filePath),
     Action.post .attachment (basename filePath)
       (some ⟨st.fs.hashBytes filePath, st.fs.size filePath⟩)] ++
    match postResult with
    | none => []
    | some nid => [Action.postLicense nid, Action.openFileReader filePath,
                   Action.startBlobWrite nid]

/-- The inline `/upload` branch of the third client variant: after the
existence check it hashes, logs the hash, opens the local `FileStreamReader`
before posting, posts, and only on a returned node attaches the license and
starts the blob stream write; the failure path neither closes the reader nor
starts a job. -/
def uploadBranchV3 (fsS : FsState) (filepath : String) (postResult : Option (List Nat)) :
    List Action :=
  if existsSync fsS.files filepath = false then
    [Action.output .error ("File " ++ filepath ++ " does not exist.")]
  else
    [Action.output .warn (toHex (fsS.hashBytes filepath)),
     Action.openFileReader filepath,
     Action.output .info ("Uploading file " ++ filepath),
     Action.post .attachment (basename filepath)
       (some ⟨fsS.hashBytes filepath, fsS.size filepath⟩)] ++
    (match postResult with
     | none => []
     | some nid => [Action.postLicense nid, Action.startBlobWrite nid]) ++
    [Action.output .info ("Done uploading file " ++ filepath)]

/-- The command dispatcher `handleCommand` of the first client variant. It
returns immediately when no channel exists; otherwise it matches `/help`,
`/history`, `/ls`, `/upload <path>` (with the existence check) and reports an
unknown command otherwise. It never mutates the ChatView. -/
def handleCommand (st : ClientState) (command : String) (postResult : Option (List Nat)) :
    ClientState × List Action :=
  if st.channel = false then (st, [])
  else if command = "/help" then (st, [Action.output .log helpText])
  else if command = "/history" then
    (st, Action.output .info "Full history follows:" ::
         st.view.map (fun m => Action.output .log (historyLine m)))
  else if command = "/ls" then (st, [Action.lsOutput st.fs.listing])
  else if jsStartsWith command "/upload " then
    if existsSync st.fs.files (jsSlice command 8) = false then
      (st, [Action.output .error ("File " ++ jsSlice command 8 ++ " does not exist.")])
    else (st, upload st (jsSlice command 8) postResult)
  else (st, [Action.output .error ("Unknown command: " ++ command)])

/-- `sendChat` of the first client variant: drop the line when no channel
exists, otherwise post a plain text node and attach a license when the post
returns a node. -/
def sendChat (st : ClientState) (message : String) (postResult : Option (List Nat)) :
    ClientState × List Action :=
  if st.channel = false then (st, [])
  else
    (st, Action.post .text message none ::
         (match postResult with
          | none => []
          | some nid => [Action.postLicense nid]))

/-- Where an input line is routed. -/
inductive Route
  | command
  | chat
deriving DecidableEq, Repr

/-- The `readline` line handler of `setupUI`: a line whose first character is
`'/'` goes to `handleCommand`, anything else to `sendChat`. -/
def routeLine (input : String) : Route :=
  if input.data.head? = some '/' then Route.command else Route.chat

/-- One input line processed end to end by the UI adapter. -/
def onLine (st : ClientState) (input : String) (postResult : Option (List Nat)) :
    ClientState × List Action :=
  match routeLine input with
  | Route.command => handleCommand st input postResult
  | Route.chat => sendChat st input postResult

/-- `~/TermChatDownloads`, the download directory. -/
def downloadDir (home : String) : String := home ++ sep ++ "TermChatDownloads"

/-- The deterministic destination path of a download:
`<download-directory>/<nodeId-hex>-<basename(payload)>`. -/
def downloadDest (home : String) (nodeId1 : List Nat) (payload : String) : String :=
  downloadDir home ++ sep ++ toHex nodeId1 ++ "-" ++ basename payload

/-- TransferJob terminal state of a download, per the design document. -/
inductive JobState
  | Running
  | Completed
  | Failed
deriving DecidableEq, Repr

/-- Modelled from the spec: the TransferJob state a finished
`streamWriter.run()` promise maps to — resolution is `Completed`, rejection is
`Failed`. -/
def jobStateOf : Except String Unit → JobState
  | Except.ok _ => JobState.Completed
  | Except.error _ => JobState.Failed

/-- `handleBlob` of the third client variant (identical control flow in the
second): on a blob event error only a debug line is logged; otherwise the node
is fetched and a blob stream reader obtained, the download directory is created
if absent, a `FileStreamWriter` is opened on the derived destination path, and
`run()` executes under `try/finally` so that the reader and the writer are
closed on the success and on the error exit, the error being rethrown. -/
def handleBlobV3 (nodeId1 : List Nat) (errMsg : Option String) (node : Option Message)
    (readerOk : Bool) (home : String) (dirExists : Bool) (runResult : Except String Unit) :
    List Action × Except String Unit :=
  match errMsg with
  | some err => ([Action.output .debug ("Error occured when syncing blob " ++ err)],
                 Except.ok ())
  | none =>
    let a0 := [Action.output .debug ("Blob data is ready for node " ++ toHex nodeId1),
               Action.openBlobReader nodeId1]
    match node, readerOk with
    | some n, true =>
      let dest := downloadDest home nodeId1 n.payload
      let a1 := a0 ++ (if dirExists then [] else [Action.mkdir (downloadDir home)]) ++
                [Action.output .info ("Downloading file as: " ++ dest),
                 Action.openFileWriter dest]
      (match runResult with
       | Except.ok _ => (a1 ++ [Action.closeReader, Action.closeWriter], Except.ok ())
       | Except.error e => (a1 ++ [Action.closeReader, Action.closeWriter], Except.error e))
    | _, _ => (a0, Except.ok ())

/-- The `download` method of the first client variant: obtain the blob stream
reader, create the download directory if absent, open a `FileStreamWriter` on
the derived destination path and fire `run()`, logging on resolution — with no
close of either stream on any path. -/
def downloadV1 (node : Message) (nodeId1 : List Nat) (home : String) (dirExists : Bool)
    (runResult : Except String Unit) : List Action :=
  [Action.openBlobReader nodeId1] ++
  (if dirExists then [] else [Action.mkdir (downloadDir home)]) ++
  [Action.output .info ("Downloading file as: " ++ downloadDest home nodeId1 node.payload),
   Action.openFileWriter (downloadDest home nodeId1 node.payload)] ++
  (match runResult with
   | Except.ok _ => [Action.output .log "download done"]
   | Except.error _ => [])

/-- The `catch` branch of the bootstrap `main`: log the startup error and exit
the process with code 1 — the only place the client exits at runtime. -/
def mainCatchActions (startErr : Option String) : List Action :=
  match startErr with
  | none => []
  | some e => [Action.output .error ("Could not init Service " ++ e), Action.exitProcess 1]

/-- The purge log line of `handleClose`. -/
def purgeMsg : String := "Message history has been purged. Due to storage disconnect."

/-- The client's `handleClose` callback: a single info-severity report. -/
def handleCloseActions : List Action := [Action.output Severity.info purgeMsg]

/-- Modelled from the spec: `onClose()` on the external `TransformerCache`
clears the entire view, after which the client's single `handleClose` callback
fires once. -/
def onCloseSync (_v : List Message) : List Message × List Action :=
  ([], handleCloseActions)

/-- Sample messages for the concrete scenario checks. -/
def msg3 : Message := ⟨1, 3, ContentType.text, "three", none⟩

/-- Sample message with index 5. -/
def msg5 : Message := ⟨2, 5, ContentType.text, "five", none⟩

/-- Sample message with index 10. -/
def msg10 : Message := ⟨3, 10, ContentType.text, "ten", none⟩

/-- Scenario A arrival order: `Insert(idx=5)`, `Add(idx=10)`, `Insert(idx=3)`. -/
def seqA : List SyncEvent := [SyncEvent.ins msg5, SyncEvent.add msg10, SyncEvent.ins msg3]

/-- A permutation of Scenario A delivering the history first. -/
def seqB : List SyncEvent := [SyncEvent.ins msg3, SyncEvent.ins msg5, SyncEvent.add msg10]

/-- A concrete attachment message announced as `file.txt` at index 3. -/
def mAtt : Message := ⟨7, 3, ContentType.attachment, "file.txt", some ⟨[170], 4⟩⟩

/-- An empty filesystem. -/
def fsEmpty : FsState := ⟨[], [], fun _ => 0, fun _ => []⟩

/-- A filesystem where only `a.txt` exists. -/
def fsUp : FsState := ⟨["a.txt"], ["a.txt"], fun _ => 4, fun _ => [170]⟩

/-- A connected client whose view holds the one attachment message. -/
def stAtt : ClientState := ⟨true, [mAtt], fsEmpty⟩

/-- A connected client in front of the `a.txt` filesystem. -/
def stUp : ClientState := ⟨true, [], fsUp⟩

/-- A client with no storage channel yet. -/
def stNoCh : ClientState := ⟨false, [], fsEmpty⟩

end TermChat

namespace TermChat

open scoped List

theorem insertOrdered_perm (m : Message) (v : List Message) :
    insertOrdered m v ~ m :: v := by
  induction v with
  | nil => exact List.Perm.refl _
  | cons x xs ih =>
    by_cases h : m.index ≤ x.index
    · simp [insertOrdered, h]
    · simp only [insertOrdered, if_neg h]
      exact (List.Perm.cons x ih).trans (List.Perm.swap m x xs)

theorem insertOrdered_mem (a m : Message) (v : List Message) :
    a ∈ insertOrdered m v ↔ a = m ∨ a ∈ v := by
  constructor
  · intro h
    have h2 : a ∈ m :: v := (insertOrdered_perm m v).mem_iff.mp h
    simpa using h2
  · intro h
    apply (insertOrdered_perm m v).mem_iff.mpr
    simpa using h

theorem insertOrdered_of_all_lt (m : Message) (v : List Message)
    (h : ∀ x ∈ v, x.index < m.index) : insertOrdered m v = v ++ [m] := by
  induction v with
  | nil => rfl
  | cons x xs ih =>
    have hx : x.index < m.index := h x (by simp)
    have hnle : ¬ m.index ≤ x.index := by omega
    simp only [insertOrdered, if_neg hnle, List.cons_append]
    rw [ih (fun y hy => h y (by simp [hy]))]

theorem insertOrdered_sorted (m : Message) (v : List Message)
    (h : List.Sorted leIdx v) : List.Sorted leIdx (insertOrdered m v) := by
  induction v with
  | nil => simp [insertOrdered, List.sorted_singleton]
  | cons x xs ih =>
    rw [List.sorted_cons] at h
    obtain ⟨hx, hxs⟩ := h
    by_cases hle : m.index ≤ x.index
    · simp only [insertOrdered, if_pos hle]
      rw [List.sorted_cons]
      refine ⟨?_, ?_⟩
      · intro y hy
        rcases List.mem_cons.mp hy with rfl | hy2
        · exact hle
        · exact Nat.le_trans hle (hx y hy2)
      · rw [List.sorted_cons]
        exact ⟨hx, hxs⟩
    · simp only [insertOrdered, if_neg hle]
      rw [List.sorted_cons]
      refine ⟨?_, ih hxs⟩
      intro y hy
      rcases (insertOrdered_mem y m xs).mp hy with rfl | hy2
      · exact Nat.le_of_lt (Nat.lt_of_not_le hle)
      · exact hx y hy2

theorem sorted_lt_of_sorted_le (l : List Message) (h : List.Sorted leIdx l)
    (hnd : (l.map Message.index).Nodup) : List.Sorted ltIdx l := by
  have hpw : l.Pairwise (fun a b => a.index ≠ b.index) := List.pairwise_map.mp hnd
  exact (h.and hpw).imp (fun hab => Nat.lt_of_le_of_ne hab.1 hab.2)

theorem containsId_eq_false {v : List Message} {i : Nat}
    (h : i ∉ v.map Message.id) : containsId v i = false := by
  rw [containsId]
  rw [List.any_eq_false]
  intro x hx
  simp only [beq_iff_eq]
  intro hxi
  exact h (List.mem_map.mpr ⟨x, hx, hxi⟩)

theorem foldl_onInsert_sorted (ms : List Message) (v : List Message)
    (h : List.Sorted leIdx v) : List.Sorted leIdx (ms.foldl onInsert v) := by
  induction ms generalizing v with
  | nil => simpa using h
  | cons m ms ih =>
    simp only [List.foldl_cons]
    apply ih
    rw [onInsert]
    split
    · exact h
    · exact insertOrdered_sorted m v h

theorem foldl_onInsert_perm (ms : List Message) (v : List Message)
    (hnd : ((v ++ ms).map Message.id).Nodup) : ms.foldl onInsert v ~ v ++ ms := by
  induction ms generalizing v with
  | nil => simp
  | cons m ms ih =>
    have hmemid : m.id ∉ v.map Message.id := by
      rw [List.map_append] at hnd
      have hdisj := List.disjoint_of_nodup_append hnd
      intro hmem
      exact hdisj hmem (by simp)
    have hc : containsId v m.id = false := containsId_eq_false hmemid
    simp only [List.foldl_cons]
    rw [onInsert, hc]
    simp only [Bool.false_eq_true, if_false]
    have hperm1 : insertOrdered m v ~ m :: v := insertOrdered_perm m v
    have hperm2 : (insertOrdered m v) ++ ms ~ (m :: v) ++ ms :=
      hperm1.append_right ms
    have hperm3 : (m :: v) ++ ms ~ v ++ m :: ms := by
      simpa using (@List.perm_middle _ m v ms).symm
    have hnd2 : (((insertOrdered m v) ++ ms).map Message.id).Nodup := by
      have hp : ((insertOrdered m v) ++ ms).map Message.id ~ (v ++ m :: ms).map Message.id :=
        (hperm2.trans hperm3).map Message.id
      exact hp.nodup_iff.mpr hnd
    exact (ih (insertOrdered m v) hnd2).trans (hperm2.trans hperm3)

theorem applySync_eq_onInsert (v : List Message) (e : SyncEvent)
    (h : addOk v e = true) : applySync v e = onInsert v e.msg := by
  cases e with
  | ins m => rfl
  | add m =>
    simp only [applySync, SyncEvent.msg, onAdd, onInsert]
    by_cases hc : containsId v m.id
    · simp [hc]
    · simp only [hc, Bool.false_eq_true, if_false]
      have hall : ∀ x ∈ v, x.index < m.index := by
        simp only [addOk, List.all_eq_true, decide_eq_true_eq] at h
        exact h
      rw [insertOrdered_of_all_lt m v hall]

theorem applyAll_eq_foldl_onInsert (es : List SyncEvent) (v : List Message)
    (h : wfSeq v es = true) :
    applyAll v es = (es.map SyncEvent.msg).foldl onInsert v := by
  induction es generalizing v with
  | nil => rfl
  | cons e es ih =>
    rw [wfSeq, Bool.and_eq_true] at h
    obtain ⟨h1, h2⟩ := h
    have he : applySync v e = onInsert v e.msg := applySync_eq_onInsert v e h1
    calc applyAll v (e :: es)
        = applyAll (applySync v e) es := rfl
      _ = (es.map SyncEvent.msg).foldl onInsert (applySync v e) := by
          apply ih
          exact h2
      _ = (es.map SyncEvent.msg).foldl onInsert (onInsert v e.msg) := by rw [he]
      _ = ((e :: es).map SyncEvent.msg).foldl onInsert v := rfl

/-- C1: for any two interleavings (permutations) of Add/Insert notifications
describing the same final set of (id, index) pairs — each interleaving honoring
the Add contract (the added index is the new maximum), with unique ids and
distinct indices, and with no Delete in between — applying them to an empty
ChatView yields identical ordered views, sorted ascending by `index` and
containing exactly the described set. -/
theorem chatview_order_invariant (l1 l2 : List SyncEvent)
    (hperm : l1.map SyncEvent.msg ~ l2.map SyncEvent.msg)
    (hid : ((l1.map SyncEvent.msg).map Message.id).Nodup)
    (hidx : ((l1.map SyncEvent.msg).map Message.index).Nodup)
    (h1 : wfSeq [] l1 = true) (h2 : wfSeq [] l2 = true) :
    applyAll [] l1 = applyAll [] l2 ∧
    List.Sorted ltIdx (applyAll [] l1) ∧
    applyAll [] l1 ~ l1.map SyncEvent.msg := by
  rw [applyAll_eq_foldl_onInsert l1 [] h1, applyAll_eq_foldl_onInsert l2 [] h2]
  have hid2 : ((l2.map SyncEvent.msg).map Message.id).Nodup :=
    (hperm.map Message.id).nodup_iff.mp hid
  have hidx2 : ((l2.map SyncEvent.msg).map Message.index).Nodup :=
    (hperm.map Message.index).nodup_iff.mp hidx
  have hp1 : (l1.map SyncEvent.msg).foldl onInsert [] ~ l1.map SyncEvent.msg := by
    simpa using foldl_onInsert_perm (l1.map SyncEvent.msg) [] (by simpa using hid)
  have hp2 : (l2.map SyncEvent.msg).foldl onInsert [] ~ l2.map SyncEvent.msg := by
    simpa using foldl_onInsert_perm (l2.map SyncEvent.msg) [] (by simpa using hid2)
  have hs1le : List.Sorted leIdx ((l1.map SyncEvent.msg).foldl onInsert []) :=
    foldl_onInsert_sorted _ [] (by simp)
  have hs2le : List.Sorted leIdx ((l2.map SyncEvent.msg).foldl onInsert []) :=
    foldl_onInsert_sorted _ [] (by simp)
  have hs1 : List.Sorted ltIdx ((l1.map SyncEvent.msg).foldl onInsert []) :=
    sorted_lt_of_sorted_le _ hs1le ((hp1.map Message.index).nodup_iff.mpr hidx)
  have hs2 : List.Sorted ltIdx ((l2.map SyncEvent.msg).foldl onInsert []) :=
    sorted_lt_of_sorted_le _ hs2le ((hp2.map Message.index).nodup_iff.mpr hidx2)
  have hptot : (l1.map SyncEvent.msg).foldl onInsert [] ~ (l2.map SyncEvent.msg).foldl onInsert [] :=
    hp1.trans (hperm.trans hp2.symm)
  exact ⟨List.eq_of_perm_of_sorted hptot hs1 hs2, hs1, hp1⟩

/-- Witness for C1: the two Scenario A interleavings `Insert(5), Add(10),
Insert(3)` and `Insert(3), Insert(5), Add(10)` yield the same view
`[idx3, idx5, idx10]`. -/
theorem chatview_order_invariant_witness :
    (seqA.map SyncEvent.msg ~ seqB.map SyncEvent.msg) ∧
    (applyAll [] seqA = applyAll [] seqB ∧
     List.Sorted ltIdx (applyAll [] seqA) ∧
     applyAll [] seqA ~ seqA.map SyncEvent.msg) :=
  ⟨by decide,
   chatview_order_invariant seqA seqB (by decide) (by decide) (by decide)
     (by decide) (by decide)⟩

theorem upload_cmd_ne_help (p : String) : ("/upload " ++ p) ≠ "/help" := by
  intro h
  have h2 : (("/upload " ++ p).data.get? 1) = ("/help".data.get? 1) := by rw [h]
  have h3 : (some 'u' : Option Char) = some 'h' := h2
  simp at h3

theorem upload_cmd_ne_history (p : String) : ("/upload " ++ p) ≠ "/history" := by
  intro h
  have h2 : (("/upload " ++ p).data.get? 1) = ("/history".data.get? 1) := by rw [h]
  have h3 : (some 'u' : Option Char) = some 'h' := h2
  simp at h3

theorem upload_cmd_ne_ls (p : String) : ("/upload " ++ p) ≠ "/ls" := by
  intro h
  have h2 : (("/upload " ++ p).data.get? 1) = ("/ls".data.get? 1) := by rw [h]
  have h3 : (some 'u' : Option Char) = some 'l' := h2
  simp at h3

theorem jsStartsWith_upload (p : String) :
    jsStartsWith ("/upload " ++ p) "/upload " = true := by
  show ("/upload ".data.isPrefixOf ("/upload " ++ p).data) = true
  rw [String.data_append]
  simp [List.isPrefixOf]

theorem jsSlice_upload (p : String) : jsSlice ("/upload " ++ p) 8 = p := rfl

theorem handleCommand_upload_eq (st : ClientState) (p : String) (pr : Option (List Nat))
    (hch : st.channel = true) :
    handleCommand st ("/upload " ++ p) pr =
      (st, if existsSync st.fs.files p = false then
             [Action.output .error ("File " ++ p ++ " does not exist.")]
           else upload st p pr) := by
  unfold handleCommand
  rw [hch]
  rw [if_neg (by decide : ¬((true : Bool) = false))]
  rw [if_neg (upload_cmd_ne_help p)]
  rw [if_neg (upload_cmd_ne_history p)]
  rw [if_neg (upload_cmd_ne_ls p)]
  rw [if_pos (jsStartsWith_upload p)]
  rw [jsSlice_upload p]
  split <;> rfl

theorem does_not_exist_sub (p : String) :
    "does not exist".data <:+: ("File " ++ p ++ " does not exist.").data := by
  refine ⟨"File ".data ++ p.data ++ [' '], ['.'], ?_⟩
  rw [String.data_append, String.data_append]
  have h1 : (" does not exist.").data = [' '] ++ ("does not exist".data ++ ['.']) := by decide
  rw [h1]
  simp [List.append_assoc]

/-- C2 counterexample: in the third variant the `/upload` branch opens its
`FileStreamReader` before posting; when the post returns no node, the reader is
never released (though indeed no blob stream write starts). -/
theorem upload_post_fail_cex :
    ((uploadBranchV3 fsUp "a.txt" none).any (fun a => a.isOpenReader) = true) ∧
    ¬ ((uploadBranchV3 fsUp "a.txt" none).any (fun a => a.isCloseReader) = true) ∧
    ¬ ((uploadBranchV3 fsUp "a.txt" none).any (fun a => a.isStartBlobWrite) = true) :=
  ⟨by decide, by decide, by decide⟩

/-- C2 (amended): when the post of the attachment message fails, no blob
stream write (upload TransferJob) is started in either variant; the `upload`
method of the first variant has opened no local reader at that point, while the
inline `/upload` branch of the third variant leaves its already-opened reader
unreleased. -/
theorem upload_post_fail_behavior (st : ClientState) (p : String) (fsS : FsState)
    (hch : st.channel = true) (hx : existsSync fsS.files p = true) :
    ((upload st p none).all (fun a => !a.isOpenReader) = true) ∧
    ((upload st p none).all (fun a => !a.isStartBlobWrite) = true) ∧
    ((uploadBranchV3 fsS p none).any (fun a => a.isOpenReader) = true) ∧
    ((uploadBranchV3 fsS p none).all (fun a => !a.isCloseReader) = true) ∧
    ((uploadBranchV3 fsS p none).all (fun a => !a.isStartBlobWrite) = true) := by
  refine ⟨?_, ?_, ?_, ?_, ?_⟩ <;>
    simp [upload, uploadBranchV3, hch, hx, Action.isOpenReader, Action.isCloseReader,
      Action.isStartBlobWrite]

/-- Witness for C2 at the concrete filesystem holding only `a.txt`. -/
theorem upload_post_fail_behavior_witness :
    ((upload stUp "a.txt" none).all (fun a => !a.isOpenReader) = true) ∧
    ((upload stUp "a.txt" none).all (fun a => !a.isStartBlobWrite) = true) ∧
    ((uploadBranchV3 fsUp "a.txt" none).any (fun a => a.isOpenReader) = true) ∧
    ((uploadBranchV3 fsUp "a.txt" none).all (fun a => !a.isCloseReader) = true) ∧
    ((uploadBranchV3 fsUp "a.txt" none).all (fun a => !a.isStartBlobWrite) = true) :=
  upload_post_fail_behavior stUp "a.txt" fsUp rfl (by decide)

/-- C3 counterexample: the first variant's `download` method closes neither
the blob stream reader nor the file stream writer, on the success exit or on
the error exit. -/
theorem download_release_cex :
    ¬ ((downloadV1 mAtt [7] "/home/u" true (Except.ok ())).any
        (fun a => a.isCloseReader) = true) ∧
    ¬ ((downloadV1 mAtt [7] "/home/u" true (Except.error "io")).any
        (fun a => a.isCloseWriter) = true) :=
  ⟨by decide, by decide⟩

/-- C3 (amended): in the `handleBlob` download path, once the transfer runs,
the reader and the writer are closed on the success and on the error exit, and
the run error propagates so the job ends `Failed` rather than `Completed`; the
first variant's `download` method closes neither stream on any path. -/
theorem download_resource_release (nid : List Nat) (n : Message) (home : String)
    (dx : Bool) (res : Except String Unit) :
    (Action.closeReader ∈ (handleBlobV3 nid none (some n) true home dx res).1) ∧
    (Action.closeWriter ∈ (handleBlobV3 nid none (some n) true home dx res).1) ∧
    ((handleBlobV3 nid none (some n) true home dx res).2 = res) ∧
    (jobStateOf (handleBlobV3 nid none (some n) true home dx res).2 = jobStateOf res) ∧
    ((downloadV1 n nid home dx res).all
        (fun a => !(a.isCloseReader || a.isCloseWriter)) = true) := by
  cases res <;> cases dx <;>
    simp [handleBlobV3, downloadV1, Action.isCloseReader, Action.isCloseWriter, jobStateOf]

theorem upload_no_exit (st : ClientState) (p : String) (pr : Option (List Nat)) :
    (upload st p pr).all (fun a => !a.isExit) = true := by
  unfold upload
  split
  · rfl
  · cases pr <;> simp [Action.isExit]

theorem uploadBranchV3_no_exit (fsS : FsState) (p : String) (pr : Option (List Nat)) :
    (uploadBranchV3 fsS p pr).all (fun a => !a.isExit) = true := by
  unfold uploadBranchV3
  split
  · simp [Action.isExit]
  · cases pr <;> simp [Action.isExit]

theorem handleBlobV3_no_exit (nid : List Nat) (em : Option String) (node : Option Message)
    (rOk : Bool) (home : String) (dx : Bool) (res : Except String Unit) :
    (handleBlobV3 nid em node rOk home dx res).1.all (fun a => !a.isExit) = true := by
  cases em with
  | some e => simp [handleBlobV3, Action.isExit]
  | none =>
    cases node with
    | none => cases rOk <;> simp [handleBlobV3, Action.isExit]
    | some n =>
      cases rOk with
      | false => simp [handleBlobV3, Action.isExit]
      | true => cases res <;> cases dx <;> simp [handleBlobV3, Action.isExit]

theorem downloadV1_no_exit (n : Message) (nid : List Nat) (home : String) (dx : Bool)
    (res : Except String Unit) :
    (downloadV1 n nid home dx res).all (fun a => !a.isExit) = true := by
  cases res <;> cases dx <;> simp [downloadV1, Action.isExit]

theorem sendChat_no_exit (st : ClientState) (m : String) (pr : Option (List Nat)) :
    (sendChat st m pr).2.all (fun a => !a.isExit) = true := by
  unfold sendChat
  split
  · rfl
  · cases pr <;> simp [Action.isExit]

theorem handleCommand_no_exit (st : ClientState) (cmd : String) (pr : Option (List Nat)) :
    (handleCommand st cmd pr).2.all (fun a => !a.isExit) = true := by
  unfold handleCommand
  split
  · rfl
  split
  · simp [Action.isExit]
  split
  · simp [Action.isExit, List.all_map, Function.comp]
  split
  · simp [Action.isExit]
  split
  · split
    · simp [Action.isExit]
    · exact upload_no_exit st _ pr
  · simp [Action.isExit]

/-- C4: no error path of the synchronizer-facing handlers or of the transfer
manager (blob handler, downloads, uploads, chat/command dispatch) ever performs
`process.exit`; errors are propagated upward, and the bootstrap `catch` branch
is the place that exits the process. -/
theorem components_never_exit (nid : List Nat) (em : Option String) (node : Option Message)
    (rOk : Bool) (home : String) (dx : Bool) (res : Except String Unit)
    (st : ClientState) (p : String) (pr : Option (List Nat)) (n2 : Message) (e : String) :
    ((handleBlobV3 nid em node rOk home dx res).1.all (fun a => !a.isExit) = true) ∧
    ((downloadV1 n2 nid home dx res).all (fun a => !a.isExit) = true) ∧
    ((upload st p pr).all (fun a => !a.isExit) = true) ∧
    ((uploadBranchV3 st.fs p pr).all (fun a => !a.isExit) = true) ∧
    ((sendChat st p pr).2.all (fun a => !a.isExit) = true) ∧
    ((handleCommand st p pr).2.all (fun a => !a.isExit) = true) ∧
    ((mainCatchActions (some e)).any (fun a => a.isExit) = true) :=
  ⟨handleBlobV3_no_exit nid em node rOk home dx res,
   downloadV1_no_exit n2 nid home dx res,
   upload_no_exit st p pr,
   uploadBranchV3_no_exit st.fs p pr,
   sendChat_no_exit st p pr,
   handleCommand_no_exit st p pr,
   by simp [mainCatchActions, Action.isExit]⟩

/-- C5 counterexample: on a view holding the attachment message announced as
`file.txt` at index 3, `/history` prints `3: file.txt`, not the
`3: <attachment> file.txt` format the claim states. -/
theorem history_attachment_cex :
    ((handleCommand stAtt "/history" none).2 =
      [Action.output .info "Full history follows:",
       Action.output .log "3: file.txt"]) ∧
    historyLineSpec mAtt = "3: <attachment> file.txt" ∧
    ("3: file.txt" : String) ≠ "3: <attachment> file.txt" :=
  ⟨by decide, by decide, by decide⟩

/-- C5 (amended): `/history` prints the full current view, in order, each
entry as `<index>: <payload>` where the payload is the text body for Text
messages and the bare filename for Attachment messages, with no
`<attachment>` marker. -/
theorem history_output (st : ClientState) (pr : Option (List Nat))
    (hch : st.channel = true) :
    handleCommand st "/history" pr =
      (st, Action.output .info "Full history follows:" ::
        st.view.map (fun m => Action.output .log (historyLine m))) := by
  unfold handleCommand
  rw [hch]
  rw [if_neg (by decide : ¬((true : Bool) = false))]
  rw [if_neg (by decide : ¬(("/history" : String) = "/help"))]
  rw [if_pos (rfl : ("/history" : String) = "/history")]

/-- Witness for C5 on the concrete one-attachment view. -/
theorem history_output_witness :
    handleCommand stAtt "/history" none =
      (stAtt, Action.output .info "Full history follows:" ::
        stAtt.view.map (fun m => Action.output .log (historyLine m))) :=
  history_output stAtt none rfl

/-- C6 counterexample: with `a.txt` existing but the post returning no node,
no upload TransferJob (blob stream write) is started, so "when the path exists
a TransferJob is started" fails as an unconditional statement. -/
theorem upload_exists_no_job_cex :
    existsSync stUp.fs.files "a.txt" = true ∧
    ¬ ((handleCommand stUp ("/upload " ++ "a.txt") none).2.any
        (fun a => a.isStartBlobWrite) = true) :=
  ⟨by decide, by decide⟩

/-- C6 (amended): `/upload <path>` with a non-existing path reports an error
containing "does not exist" and changes nothing; with an existing path, the
upload is started and a blob stream write (upload TransferJob) begins once the
post returns a node. -/
theorem upload_dispatch (st st2 : ClientState) (p p2 : String) (pr : Option (List Nat))
    (nid : List Nat) (hch : st.channel = true) (hch2 : st2.channel = true)
    (hmiss : existsSync st.fs.files p = false)
    (hexist : existsSync st2.fs.files p2 = true)
    (hpost : pr = some nid) :
    handleCommand st ("/upload " ++ p) pr =
      (st, [Action.output .error ("File " ++ p ++ " does not exist.")]) ∧
    ("does not exist".data <:+: ("File " ++ p ++ " does not exist.").data) ∧
    (handleCommand st2 ("/upload " ++ p2) pr).1 = st2 ∧
    Action.startBlobWrite nid ∈ (handleCommand st2 ("/upload " ++ p2) pr).2 := by
  rw [handleCommand_upload_eq st p pr hch, handleCommand_upload_eq st2 p2 pr hch2,
    hmiss, hexist]
  refine ⟨by rw [if_pos rfl], does_not_exist_sub p, ?_, ?_⟩
  · rw [if_neg (by decide : ¬((true : Bool) = false))]
  · rw [if_neg (by decide : ¬((true : Bool) = false))]
    show Action.startBlobWrite nid ∈ upload st2 p2 pr
    unfold upload
    rw [hch2, hpost]
    rw [if_neg (by decide : ¬((true : Bool) = false))]
    simp

/-- Witness for C6: Scenario C with `missing.txt` absent, and the successful
upload of the existing `a.txt`. -/
theorem upload_dispatch_witness :
    handleCommand stAtt ("/upload " ++ "missing.txt") (some [9]) =
      (stAtt, [Action.output .error ("File " ++ "missing.txt" ++ " does not exist.")]) ∧
    ("does not exist".data <:+: ("File " ++ "missing.txt" ++ " does not exist.").data) ∧
    (handleCommand stUp ("/upload " ++ "a.txt") (some [9])).1 = stUp ∧
    Action.startBlobWrite [9] ∈ (handleCommand stUp ("/upload " ++ "a.txt") (some [9])).2 :=
  upload_dispatch stAtt stUp "missing.txt" "a.txt" (some [9]) [9] rfl rfl
    (by decide) (by decide) rfl

/-- C7: every download writes to
`<download-directory>/<nodeId-hex>-<basename(payload)>`, and the download
directory is created exactly when it is absent — in the `handleBlob` path and
in the first variant's `download` method alike. -/
theorem download_dest_path (nid : List Nat) (n : Message) (home : String) (dx : Bool)
    (res : Except String Unit) :
    (Action.openFileWriter (downloadDir home ++ sep ++ toHex nid ++ "-" ++ basename n.payload)
        ∈ (handleBlobV3 nid none (some n) true home dx res).1) ∧
    ((Action.mkdir (downloadDir home) ∈ (handleBlobV3 nid none (some n) true home dx res).1)
        ↔ dx = false) ∧
    (Action.openFileWriter (downloadDir home ++ sep ++ toHex nid ++ "-" ++ basename n.payload)
        ∈ downloadV1 n nid home dx res) ∧
    ((Action.mkdir (downloadDir home) ∈ downloadV1 n nid home dx res) ↔ dx = false) := by
  cases dx <;> cases res <;>
    simp [handleBlobV3, downloadV1, downloadDest]

/-- C8: `onClose` clears the view to empty and fires exactly one purge
notification, reported at info severity (not as an error), whatever the prior
view was. -/
theorem close_purge (v : List Message) :
    onCloseSync v = ([], [Action.output Severity.info purgeMsg]) ∧
    ((onCloseSync v).2.count (Action.output Severity.info purgeMsg) = 1) ∧
    ((onCloseSync v).2.all (fun a => !a.isErrorOutput) = true) := by
  refine ⟨rfl, ?_, ?_⟩
  · show ([Action.output Severity.info purgeMsg].count (Action.output Severity.info purgeMsg)) = 1
    decide
  · show ([Action.output Severity.info purgeMsg].all (fun a => !a.isErrorOutput)) = true
    decide

/-- C9: before a storage channel exists, any `/`-prefixed line — including the
purely local `/help` and `/ls` — produces no output, no error and no state
change: the dispatcher returns immediately. -/
theorem no_channel_noop (st : ClientState) (cmd : String) (pr : Option (List Nat))
    (hch : st.channel = false) (hc : cmd.data.head? = some '/') :
    onLine st cmd pr = (st, []) := by
  have hr : routeLine cmd = Route.command := by rw [routeLine, if_pos hc]
  unfold onLine
  rw [hr]
  show handleCommand st cmd pr = (st, [])
  unfold handleCommand
  rw [hch]
  rw [if_pos rfl]

/-- Witness for C9: `/help` before connection is silently dropped. -/
theorem no_channel_noop_witness :
    onLine stNoCh "/help" none = (stNoCh, []) :=
  no_channel_noop stNoCh "/help" none rfl rfl

/-- C10: a line whose first character is not `/` — the empty line included —
is routed to `sendChat` and posted as a Text message (with a license once the
post returns a node); the routing depends only on the first character. -/
theorem chat_dispatch (st : ClientState) (i1 i2 : String) (pr : Option (List Nat))
    (nid : List Nat) (h1 : i1.data.head? ≠ some '/')
    (hfc : i1.data.head? = i2.data.head?)
    (hch : st.channel = true) (hpr : pr = some nid) :
    routeLine i1 = Route.chat ∧
    routeLine i2 = routeLine i1 ∧
    onLine st i1 pr = sendChat st i1 pr ∧
    (onLine st i1 pr).2 = [Action.post ContentType.text i1 none, Action.postLicense nid] ∧
    (onLine st i1 pr).1 = st := by
  have hr1 : routeLine i1 = Route.chat := by rw [routeLine, if_neg h1]
  have hr2 : routeLine i2 = Route.chat := by rw [routeLine, ← hfc, if_neg h1]
  have ho : onLine st i1 pr = sendChat st i1 pr := by
    unfold onLine
    rw [hr1]
  have hs : sendChat st i1 pr =
      (st, [Action.post ContentType.text i1 none, Action.postLicense nid]) := by
    unfold sendChat
    rw [hch, hpr]
    rw [if_neg (by decide : ¬((true : Bool) = false))]
  exact ⟨hr1, hr2.trans hr1.symm, ho, by rw [ho, hs], by rw [ho, hs]⟩

/-- Witness for C10 on the empty input line. -/
theorem chat_dispatch_witness :
    routeLine "" = Route.chat ∧
    routeLine "" = routeLine "" ∧
    onLine stAtt "" (some [1]) = sendChat stAtt "" (some [1]) ∧
    (onLine stAtt "" (some [1])).2 =
      [Action.post ContentType.text "" none, Action.postLicense [1]] ∧
    (onLine stAtt "" (some [1])).1 = stAtt :=
  chat_dispatch stAtt "" "" (some [1]) [1] (by decide) rfl rfl rfl

end TermChat
